import Mathlib

/-!
Shallow embedding of the benchmark harness of the RAPIDS cuML workbench
example notebooks.

The harness lives in the benchmarking notebook: a global accumulator
`benchmark_results` (a Python list of dict records), `enrich_result`
(in-place tagging of a record with the algorithm name and the runner's
dataset name and input type), `execute_benchmark` (runs a
`SpeedupComparisonRunner`, enriches each returned record and extends the
accumulator), and two charting helpers `chart_single_algo_speedup`
(pandas `pivot` on n_samples x n_features with value `speedup`) and
`chart_all_algo_speedup` (pandas `groupby` on `["algo", "n_samples"]`
followed by `mean`).  The accumulator is finally converted to a pandas
DataFrame and written to CSV.

Python dict records are embedded as association lists of string keys and
`Value`s; dict assignment keeps the position of an existing key and
appends a fresh key at the end, exactly as CPython does.  The global
accumulator is threaded explicitly as a state parameter.  The cuML
runner's `run` method is external library code and is modelled from the
spec where a claim needs it; everything else is translated directly from
the notebook source.
-/

namespace CuMLBench

/-- A value stored in a result-record field: a string tag, a size, or a
timing/speedup number (timings embedded as rationals). -/
inductive Value where
  | str : String → Value
  | nat : Nat → Value
  | rat : ℚ → Value
deriving DecidableEq, Repr

/-- A result record: a Python dict with string keys, embedded as an
association list in insertion order. -/
abbrev Record : Type := List (String × Value)

/-- Python dict assignment `r[k] = v`: an existing key is overwritten in
place (its position is kept), a fresh key is appended at the end. -/
def Record.set (r : Record) (k : String) (v : Value) : Record :=
  if (List.any r fun p => p.1 == k) then
    List.map (fun p => if p.1 == k then (k, v) else p) r
  else
    List.append r [(k, v)]

/-- Python dict lookup `r[k]` (as an option). -/
def Record.get? (r : Record) (k : String) : Option Value :=
  Option.map Prod.snd (List.find? (fun p => p.1 == k) r)

/-- The keys of a record, in insertion order (Python `dict.keys()`). -/
def Record.keys (r : Record) : List String :=
  List.map Prod.fst r

/-- The sweep configuration of `cuml.benchmark.runners.SpeedupComparisonRunner`
as constructed in the notebook: row sizes, feature sizes, dataset name,
input representation and repetition count. -/
structure SpeedupComparisonRunner where
  bench_rows : List Nat
  bench_dims : List Nat
  dataset_name : String
  input_type : String
  n_reps : Nat
deriving DecidableEq, Repr

/-- A timing oracle standing for the wall-clock measurements of the two
fits: given (rows, features, repetition index) it returns the pair
(accelerated time `cu_time`, baseline time `cpu_time`). -/
abbrev Timing : Type := Nat → Nat → Nat → ℚ × ℚ

/-- Modelled from the spec: `SpeedupComparisonRunner.run` is cuML library
code absent from this repository.  Per the spec's Benchmark Runner
contract, for each (rows, features) pair and each repetition it fits the
accelerated estimator (recording `cu_time`), fits the CPU baseline when
`run_cpu` is enabled (recording `cpu_time`), and emits one record per
sweep point carrying `n_samples`, `n_features`, `cu_time`, and — only
when the baseline ran — `cpu_time` and the derived
`speedup = cpu_time / cu_time`; with the baseline disabled the
`cpu_time` and `speedup` fields are omitted rather than fabricated. -/
def SpeedupComparisonRunner.run (r : SpeedupComparisonRunner)
    (timing : Timing) (run_cpu : Bool) : List Record :=
  List.flatMap r.bench_rows fun ns =>
    List.flatMap r.bench_dims fun nf =>
      List.map
        (fun rep =>
          let t := timing ns nf rep
          let base : Record :=
            [("n_samples", Value.nat ns), ("n_features", Value.nat nf),
             ("cu_time", Value.rat t.1)]
          if run_cpu then
            List.append base
              [("cpu_time", Value.rat t.2), ("speedup", Value.rat (t.2 / t.1))]
          else base)
        (List.range r.n_reps)

/-- `enrich_result(algorithm, runner, result)` from the notebook: mutates
the record in place, setting `result["algo"]`, `result["dataset_name"]`
and `result["input_type"]`, and returns the same (mutated) record. -/
def enrich_result (algorithm : String) (runner : SpeedupComparisonRunner)
    (result : Record) : Record :=
  ((result.set "algo" (Value.str algorithm)).set "dataset_name"
      (Value.str runner.dataset_name)).set "input_type"
    (Value.str runner.input_type)

/-- The body of `execute_benchmark` after `runner.run` has returned:
enrich every returned record and extend the global accumulator
`benchmark_results` (threaded here as explicit state). -/
def execute_benchmark_with (algorithm : String)
    (runner : SpeedupComparisonRunner) (runResults : List Record)
    (benchmark_results : List Record) : List Record :=
  List.append benchmark_results
    (List.map (enrich_result algorithm runner) runResults)

/-- `execute_benchmark(algorithm, runner, ..., run_cpu)` from the
notebook, with the spec-modelled `runner.run` supplying the raw records
and the accumulator threaded as state. -/
def execute_benchmark (algorithm : String)
    (runner : SpeedupComparisonRunner) (timing : Timing) (run_cpu : Bool)
    (benchmark_results : List Record) : List Record :=
  execute_benchmark_with algorithm runner (runner.run timing run_cpu)
    benchmark_results

/-- `execute_benchmark` when the underlying `runner.run` call may raise:
Python evaluates `runner.run(...)` first, so when it raises the
exception propagates unchanged and the `extend` of the accumulator never
happens.  The returned pair is (outcome, accumulator afterwards). -/
def execute_benchmark_try (algorithm : String)
    (runner : SpeedupComparisonRunner)
    (runOutcome : Except String (List Record))
    (benchmark_results : List Record) :
    Except String Unit × List Record :=
  match runOutcome with
  | Except.error e => (Except.error e, benchmark_results)
  | Except.ok results =>
      (Except.ok (),
        execute_benchmark_with algorithm runner results benchmark_results)

/-- Left-to-right deduplication with an accumulator of already-seen
elements. -/
def dedupFirstAux {α : Type} [DecidableEq α] (seen : List α) :
    List α → List α
  | [] => []
  | x :: xs =>
      if x ∈ seen then dedupFirstAux seen xs
      else x :: dedupFirstAux (x :: seen) xs

/-- First-occurrence deduplication, as used implicitly by pandas when it
collects the distinct keys of a grouping, the distinct index and column
labels of a pivot, or the union of the columns of a list of dicts. -/
def dedupFirst {α : Type} [DecidableEq α] (xs : List α) : List α :=
  dedupFirstAux [] xs

/-- The grouping key of a record under the notebook's
`groupby(["algo", "n_samples"])`: note that `n_features` is NOT part of
the key. -/
def groupKey (r : Record) : Option Value × Option Value :=
  (r.get? "algo", r.get? "n_samples")

/-- Numeric speedup values of a list of records, in order (pandas `mean`
averages the numeric `speedup` column of the group). -/
def speedupValues (records : List Record) : List ℚ :=
  List.filterMap
    (fun r =>
      match Record.get? r "speedup" with
      | some (Value.rat q) => some q
      | _ => none)
    records

/-- Arithmetic mean of a list of rationals (0 for the empty list, which
never arises for a nonempty group). -/
def listMean (xs : List ℚ) : ℚ :=
  xs.sum / (xs.length : ℚ)

/-- `chart_all_algo_speedup(df)` from the notebook, up to plotting: it
selects the columns `algo`, `n_samples`, `speedup`, groups by
`["algo", "n_samples"]`, and takes the mean of `speedup` per group.  The
result is the grouped table: one entry per distinct (algo, n_samples)
pair, holding the mean speedup of ALL records with that pair — the
repetitions and every feature size alike. -/
def chart_all_algo_speedup (records : List Record) :
    List ((Option Value × Option Value) × ℚ) :=
  List.map
    (fun k =>
      (k, listMean (speedupValues
        (List.filter (fun r => groupKey r == k) records))))
    (dedupFirst (List.map groupKey records))

/-- Whether a list of records contains two records landing in the same
(n_samples, n_features) cell — the condition under which pandas
`DataFrame.pivot` raises `ValueError: Index contains duplicate entries,
cannot reshape`. -/
def hasDuplicateCell (records : List Record) : Bool :=
  List.any records fun r =>
    2 ≤ (List.filter
      (fun s => (Record.get? s "n_samples" == Record.get? r "n_samples") &&
        (Record.get? s "n_features" == Record.get? r "n_features"))
      records).length

/-- Pandas `df.pivot(index="n_samples", columns="n_features",
values="speedup")`: fails (raises) when some (index, columns) pair is
duplicated, and otherwise returns the table whose rows are the distinct
`n_samples` values, whose columns are the distinct `n_features` values,
and whose cell holds the `speedup` of the unique matching record (empty
when no record matches the cell). -/
def pandasPivot (records : List Record) :
    Option (List (Option Value × List (Option Value × Option Value))) :=
  if hasDuplicateCell records then none
  else
    some (List.map
      (fun i =>
        (i, List.map
          (fun c =>
            (c, Option.bind
              (List.find? (fun r => (Record.get? r "n_samples" == i) &&
                (Record.get? r "n_features" == c)) records)
              (fun r => Record.get? r "speedup")))
          (List.map some (dedupFirst
            (List.filterMap (fun r => Record.get? r "n_features") records)))))
      (List.map some (dedupFirst
        (List.filterMap (fun r => Record.get? r "n_samples") records))))

/-- `chart_single_algo_speedup(df, algorithm)` from the notebook, up to
plotting: select the rows with `algo == algorithm`, then pivot with row
index `n_samples`, column index `n_features` and values `speedup`.
`none` models the `ValueError` pandas raises on duplicate cells. -/
def chart_single_algo_speedup (records : List Record) (algorithm : String) :
    Option (List (Option Value × List (Option Value × Option Value))) :=
  pandasPivot
    (List.filter (fun r => Record.get? r "algo" == some (Value.str algorithm))
      records)

/-- The columns of `pd.DataFrame(benchmark_results)`: the union of the
keys of all records, in order of first appearance. -/
def dataFrameColumns (records : List Record) : List String :=
  dedupFirst (List.flatMap records Record.keys)

/-- The header row written by `df.to_csv("benchmark_results.csv")`: the
DataFrame's columns. -/
def csvHeader (records : List Record) : List String :=
  dataFrameColumns records

/-- The comparison cell of the multi-node multi-GPU k-means demo:
`passed = score == 1.0`, an exact floating-point equality test on the
adjusted rand score (embedded as a rational). -/
def kmeans_passed (score : ℚ) : Bool :=
  score == 1

/-- The verdict the demo prints after the word-for-word fixed prefix:
`'equal' if passed else 'NOT equal'`. -/
def kmeans_verdict (score : ℚ) : String :=
  if kmeans_passed score then "equal" else "NOT equal"

/-! Concrete instances used as witnesses and counterexamples.  The first
one is the spec's end-to-end scenario: a single sweep point of 16384
rows and 32 features with one repetition. -/

/-- A one-point sweep: `bench_rows=[16384]`, `bench_dims=[32]`, one
repetition, the notebook's `blobs` dataset and `numpy` input type. -/
def exampleRunner : SpeedupComparisonRunner :=
  { bench_rows := [16384], bench_dims := [32], dataset_name := "blobs",
    input_type := "numpy", n_reps := 1 }

/-- Stub timings: the accelerated fit takes 1.0 s and the baseline 4.0 s
at every sweep point. -/
def exampleTiming : Timing := fun _ _ _ => (1, 4)

/-- The same one-point sweep at the notebook's configured repetition
count `N_REPS = 3`. -/
def exampleRunnerReps3 : SpeedupComparisonRunner :=
  { exampleRunner with n_reps := 3 }

/-- A one-repetition sweep over the notebook's two skinny feature sizes. -/
def exampleRunnerTwoFeatures : SpeedupComparisonRunner :=
  { bench_rows := [16384], bench_dims := [32, 256], dataset_name := "blobs",
    input_type := "numpy", n_reps := 1 }

/-- Stub timings whose speedup is 2 at 32 features and 4 at 256
features. -/
def exampleTimingByFeature : Timing :=
  fun _ nf _ => (1, if nf = 32 then 2 else 4)

/-- The raw record the modelled runner emits for the example sweep with
the baseline enabled, before enrichment. -/
def exampleRawCpu : Record :=
  [("n_samples", Value.nat 16384), ("n_features", Value.nat 32),
   ("cu_time", Value.rat 1), ("cpu_time", Value.rat 4),
   ("speedup", Value.rat 4)]

/-- The single record `execute_benchmark "NearestNeighbors"
exampleRunner exampleTiming true []` appends. -/
def exampleEmittedCpu : Record :=
  [("n_samples", Value.nat 16384), ("n_features", Value.nat 32),
   ("cu_time", Value.rat 1), ("cpu_time", Value.rat 4),
   ("speedup", Value.rat 4), ("algo", Value.str "NearestNeighbors"),
   ("dataset_name", Value.str "blobs"), ("input_type", Value.str "numpy")]

/-- The single record `execute_benchmark "TSNE" exampleRunner
exampleTiming false []` appends: no `cpu_time`, no `speedup`. -/
def exampleEmittedNoCpu : Record :=
  [("n_samples", Value.nat 16384), ("n_features", Value.nat 32),
   ("cu_time", Value.rat 1), ("algo", Value.str "TSNE"),
   ("dataset_name", Value.str "blobs"), ("input_type", Value.str "numpy")]

/-- The records of a complete one-repetition sweep over two feature
sizes, as accumulated by `execute_benchmark`. -/
def exampleTwoFeatureRecords : List Record :=
  execute_benchmark "KMeans" exampleRunnerTwoFeatures exampleTimingByFeature
    true []

/-- The accumulated records of the baseline-enabled example invocation. -/
def exampleCpuRecords : List Record :=
  execute_benchmark "NearestNeighbors" exampleRunner exampleTiming true []

/-! Helper lemmas about the dict embedding. -/

theorem find?_map_set_self (r : List (String × Value)) (k : String)
    (v : Value) (hany : (List.any r fun q => q.1 == k) = true) :
    List.find? (fun q => q.1 == k)
      (List.map (fun p => if p.1 == k then (k, v) else p) r) = some (k, v) := by
  induction r with
  | nil => simp at hany
  | cons p r ih =>
    by_cases hpk : p.1 = k
    · simp [hpk]
    · have hany' : (List.any r fun q => q.1 == k) = true := by
        simpa [hpk] using hany
      simpa [hpk] using ih hany'

theorem find?_map_set_ne (r : List (String × Value)) (k k' : String)
    (v : Value) (h : k' ≠ k) :
    List.find? (fun q => q.1 == k')
      (List.map (fun p => if p.1 == k then (k, v) else p) r) =
    List.find? (fun q => q.1 == k') r := by
  induction r with
  | nil => rfl
  | cons p r ih =>
    rw [List.map_cons]
    by_cases hpk : p.1 = k
    · rw [if_pos (beq_iff_eq.mpr hpk),
        List.find?_cons_of_neg _ (by simp [Ne.symm h]),
        List.find?_cons_of_neg _ (by simp [hpk, Ne.symm h]), ih]
    · by_cases hpk' : p.1 = k'
      · rw [if_neg (by simpa using hpk),
          List.find?_cons_of_pos _ (by simp [hpk']),
          List.find?_cons_of_pos _ (by simp [hpk'])]
      · rw [if_neg (by simpa using hpk),
          List.find?_cons_of_neg _ (by simp [hpk']),
          List.find?_cons_of_neg _ (by simp [hpk']), ih]

theorem find?_of_any_false (r : List (String × Value)) (k : String)
    (hany : (List.any r fun q => q.1 == k) = false) :
    List.find? (fun q => q.1 == k) r = none := by
  rw [List.find?_eq_none]
  intro x hx hxk
  have : (List.any r fun q => q.1 == k) = true :=
    List.any_eq_true.mpr ⟨x, hx, hxk⟩
  rw [this] at hany
  exact Bool.noConfusion hany

theorem Record.get?_set_self (r : Record) (k : String) (v : Value) :
    Record.get? (Record.set r k v) k = some v := by
  unfold Record.set Record.get?
  by_cases hany : (List.any r fun q => q.1 == k) = true
  · rw [if_pos hany, find?_map_set_self r k v hany]
    rfl
  · have hfalse : (List.any r fun q => q.1 == k) = false :=
      Bool.eq_false_iff.mpr hany
    rw [if_neg hany, List.append_eq, List.find?_append,
      find?_of_any_false r k hfalse]
    simp

theorem Record.get?_set_ne (r : Record) (k k' : String) (v : Value)
    (h : k' ≠ k) :
    Record.get? (Record.set r k v) k' = Record.get? r k' := by
  unfold Record.set Record.get?
  by_cases hany : (List.any r fun q => q.1 == k) = true
  · rw [if_pos hany, find?_map_set_ne r k k' v h]
  · rw [if_neg hany, List.append_eq, List.find?_append]
    have hone : List.find? (fun q => q.1 == k') [(k, v)] = none := by
      simp [Ne.symm h]
    rw [hone]
    simp

theorem Record.mem_keys_of_get? {r : Record} {k : String} {v : Value}
    (h : Record.get? r k = some v) : k ∈ Record.keys r := by
  unfold Record.get? at h
  obtain ⟨p, hp1, hp2⟩ := Option.map_eq_some'.mp h
  have hmem : p ∈ r := List.mem_of_find?_eq_some hp1
  have hkey := List.find?_some hp1
  have hk : p.1 = k := by simpa using hkey
  exact hk ▸ List.mem_map.mpr ⟨p, hmem, rfl⟩

theorem mem_dedupFirstAux {α : Type} [DecidableEq α] {x : α} :
    ∀ {xs seen : List α}, x ∈ xs → x ∉ seen →
      x ∈ dedupFirstAux seen xs := by
  intro xs
  induction xs with
  | nil => intro seen h; simp at h
  | cons y ys ih =>
    intro seen h hseen
    rw [dedupFirstAux]
    by_cases hys : y ∈ seen
    · rw [if_pos hys]
      rcases List.mem_cons.mp h with h | h
      · exact absurd (h ▸ hys) hseen
      · exact ih h hseen
    · rw [if_neg hys]
      by_cases hxy : x = y
      · exact hxy ▸ List.mem_cons_self y _
      · rcases List.mem_cons.mp h with h | h
        · exact absurd h hxy
        · refine List.mem_cons.mpr (Or.inr (ih h ?_))
          intro hmem
          rcases List.mem_cons.mp hmem with h' | h'
          · exact hxy h'
          · exact hseen h'

theorem mem_dedupFirst {α : Type} [DecidableEq α] {x : α}
    {xs : List α} (h : x ∈ xs) : x ∈ dedupFirst xs :=
  mem_dedupFirstAux h (by simp)

/-! Lemmas about `enrich_result` as a map on records. -/

theorem enrich_result_algo (a : String) (runner : SpeedupComparisonRunner)
    (r : Record) :
    Record.get? (enrich_result a runner r) "algo" = some (Value.str a) := by
  unfold enrich_result
  rw [Record.get?_set_ne _ _ _ _ (by decide),
    Record.get?_set_ne _ _ _ _ (by decide), Record.get?_set_self]

theorem enrich_result_dataset (a : String) (runner : SpeedupComparisonRunner)
    (r : Record) :
    Record.get? (enrich_result a runner r) "dataset_name" =
      some (Value.str runner.dataset_name) := by
  unfold enrich_result
  rw [Record.get?_set_ne _ _ _ _ (by decide), Record.get?_set_self]

theorem enrich_result_input (a : String) (runner : SpeedupComparisonRunner)
    (r : Record) :
    Record.get? (enrich_result a runner r) "input_type" =
      some (Value.str runner.input_type) := by
  unfold enrich_result
  rw [Record.get?_set_self]

theorem enrich_result_frame (a : String) (runner : SpeedupComparisonRunner)
    (r : Record) (k : String) (h1 : k ≠ "algo") (h2 : k ≠ "dataset_name")
    (h3 : k ≠ "input_type") :
    Record.get? (enrich_result a runner r) k = Record.get? r k := by
  unfold enrich_result
  rw [Record.get?_set_ne _ _ _ _ h3, Record.get?_set_ne _ _ _ _ h2,
    Record.get?_set_ne _ _ _ _ h1]

/-! Claim theorems. -/

/-- C2: every record appended to the accumulated sequence by an
invocation of `execute_benchmark` with algorithm name `a` on runner
`runner` carries `algo = a`, `dataset_name = runner.dataset_name` and
`input_type = runner.input_type` — whatever list of raw records the
underlying `runner.run` call returned. -/
theorem records_tagged (a : String) (runner : SpeedupComparisonRunner)
    (runResults prev : List Record) :
    ∀ r ∈ List.drop prev.length
        (execute_benchmark_with a runner runResults prev),
      Record.get? r "algo" = some (Value.str a) ∧
      Record.get? r "dataset_name" = some (Value.str runner.dataset_name) ∧
      Record.get? r "input_type" = some (Value.str runner.input_type) := by
  intro r hr
  simp only [execute_benchmark_with, List.append_eq, List.drop_left] at hr
  obtain ⟨s, _, rfl⟩ := List.mem_map.mp hr
  exact ⟨enrich_result_algo a runner s, enrich_result_dataset a runner s,
    enrich_result_input a runner s⟩

/-- Witness for C2 at the concrete example invocation. -/
theorem records_tagged_witness :
    Record.get? exampleEmittedCpu "algo" =
        some (Value.str "NearestNeighbors") ∧
      Record.get? exampleEmittedCpu "dataset_name" =
        some (Value.str "blobs") ∧
      Record.get? exampleEmittedCpu "input_type" =
        some (Value.str "numpy") :=
  records_tagged "NearestNeighbors" exampleRunner [exampleRawCpu] []
    exampleEmittedCpu (by decide)

/-- C3: one invocation of `execute_benchmark` is append-only on the
accumulated sequence: the previously accumulated records survive
unchanged, in order, as the initial segment, the invocation's records
follow them, and the length never shrinks.  The downstream consumers
(`dataFrameColumns`/`csvHeader`, `chart_single_algo_speedup`,
`chart_all_algo_speedup`) are functions of the sequence and return fresh
values, so they cannot modify it. -/
theorem benchmark_results_append_only (a : String)
    (runner : SpeedupComparisonRunner) (runResults prev : List Record) :
    List.take prev.length
        (execute_benchmark_with a runner runResults prev) = prev ∧
      List.drop prev.length
        (execute_benchmark_with a runner runResults prev) =
        List.map (enrich_result a runner) runResults ∧
      prev.length ≤
        (execute_benchmark_with a runner runResults prev).length := by
  refine ⟨?_, ?_, ?_⟩ <;>
    simp [execute_benchmark_with, List.take_left, List.drop_left]

/-- C4: when the underlying `runner.run` call raises, the exception
propagates unchanged out of `execute_benchmark` (Python evaluates
`runner.run(...)` before the `extend`), and the accumulated sequence is
exactly what it was before the invocation. -/
theorem run_error_leaves_results_intact (a : String)
    (runner : SpeedupComparisonRunner) (e : String) (prev : List Record) :
    execute_benchmark_try a runner (Except.error e) prev =
      (Except.error e, prev) :=
  rfl

/-- C9: `enrich_result` changes only the three tag fields: the value at
every other key of the record is untouched (and the function returns the
mutated input record itself, which the embedding renders as the updated
association list). -/
theorem enrich_result_only_tags (a : String)
    (runner : SpeedupComparisonRunner) (r : Record) (k : String)
    (h1 : k ≠ "algo") (h2 : k ≠ "dataset_name") (h3 : k ≠ "input_type") :
    Record.get? (enrich_result a runner r) k = Record.get? r k :=
  enrich_result_frame a runner r k h1 h2 h3

/-- Witness for C9: the `cu_time` field of the example raw record is
untouched by enrichment. -/
theorem enrich_result_only_tags_witness :
    Record.get? (enrich_result "KMeans" exampleRunner exampleRawCpu)
        "cu_time" = Record.get? exampleRawCpu "cu_time" :=
  enrich_result_only_tags "KMeans" exampleRunner exampleRawCpu "cu_time"
    (by decide) (by decide) (by decide)

/-- C10: the k-means demo prints `equal` exactly when the adjusted rand
score is exactly 1, and prints `NOT equal` for every score below 1,
however close to 1. -/
theorem kmeans_equal_iff_score_one (score : ℚ) :
    (kmeans_verdict score = "equal" ↔ score = 1) ∧
      (score < 1 → kmeans_verdict score = "NOT equal") := by
  constructor
  · unfold kmeans_verdict kmeans_passed
    by_cases h : score = 1
    · simp [h]
    · simp [h]
  · intro hlt
    unfold kmeans_verdict kmeans_passed
    simp [ne_of_lt hlt]

/-- Witness for C10 at score 99/100 (below 1) and at score exactly 1. -/
theorem kmeans_equal_iff_score_one_witness :
    kmeans_verdict (99 / 100) = "NOT equal" ∧ kmeans_verdict 1 = "equal" :=
  ⟨(kmeans_equal_iff_score_one (99 / 100)).2 (by norm_num),
   (kmeans_equal_iff_score_one 1).1.mpr rfl⟩

/-- C1: with the CPU baseline enabled, every record an invocation of
`execute_benchmark` appends carries `speedup = cpu_time / cu_time` — the
baseline time divided by the accelerated time, exactly, in the rational
embedding of the timings; with `run_cpu = false`, every appended record
omits both the `speedup` and the baseline-time (`cpu_time`) field. -/
theorem speedup_iff_baseline (a : String) (runner : SpeedupComparisonRunner)
    (timing : Timing) (prev : List Record) :
    (∀ r ∈ List.drop prev.length
        (execute_benchmark a runner timing true prev),
      ∃ b c : ℚ, Record.get? r "cpu_time" = some (Value.rat b) ∧
        Record.get? r "cu_time" = some (Value.rat c) ∧
        Record.get? r "speedup" = some (Value.rat (b / c))) ∧
    (∀ r ∈ List.drop prev.length
        (execute_benchmark a runner timing false prev),
      Record.get? r "speedup" = none ∧ Record.get? r "cpu_time" = none) := by
  constructor
  · intro r hr
    simp only [execute_benchmark, execute_benchmark_with, List.append_eq,
      List.drop_left] at hr
    obtain ⟨s, hs, rfl⟩ := List.mem_map.mp hr
    rw [SpeedupComparisonRunner.run] at hs
    simp only [List.mem_flatMap, List.mem_map, List.mem_range] at hs
    obtain ⟨ns, _, nf, _, rep, _, rfl⟩ := hs
    refine ⟨(timing ns nf rep).2, (timing ns nf rep).1, ?_, ?_, ?_⟩ <;>
      · rw [enrich_result_frame _ _ _ _ (by decide) (by decide) (by decide)]
        rfl
  · intro r hr
    simp only [execute_benchmark, execute_benchmark_with, List.append_eq,
      List.drop_left] at hr
    obtain ⟨s, hs, rfl⟩ := List.mem_map.mp hr
    rw [SpeedupComparisonRunner.run] at hs
    simp only [List.mem_flatMap, List.mem_map, List.mem_range] at hs
    obtain ⟨ns, _, nf, _, rep, _, rfl⟩ := hs
    refine ⟨?_, ?_⟩ <;>
      · rw [enrich_result_frame _ _ _ _ (by decide) (by decide) (by decide)]
        rfl

/-- Helper: the example invocation with the baseline enabled appends
exactly the one expected record. -/
theorem exec_cpu_eval :
    execute_benchmark "NearestNeighbors" exampleRunner exampleTiming true
      [] = [exampleEmittedCpu] := by
  simp [execute_benchmark, execute_benchmark_with,
    SpeedupComparisonRunner.run, exampleRunner, exampleTiming,
    enrich_result, Record.set, exampleEmittedCpu]

/-- Helper: the example invocation with the baseline disabled appends
exactly the one expected record, with no `cpu_time` and no `speedup`. -/
theorem exec_nocpu_eval :
    execute_benchmark "TSNE" exampleRunner exampleTiming false [] =
      [exampleEmittedNoCpu] := by
  simp [execute_benchmark, execute_benchmark_with,
    SpeedupComparisonRunner.run, exampleRunner, exampleTiming,
    enrich_result, Record.set, exampleEmittedNoCpu]

/-- Witness for C1: the example invocation with baseline enabled emits
one record with `speedup = 4 = 4.0 / 1.0`, and with the baseline
disabled the emitted record has no `speedup` and no `cpu_time`. -/
theorem speedup_iff_baseline_witness :
    (∃ b c : ℚ,
      Record.get? exampleEmittedCpu "cpu_time" = some (Value.rat b) ∧
        Record.get? exampleEmittedCpu "cu_time" = some (Value.rat c) ∧
        Record.get? exampleEmittedCpu "speedup" =
          some (Value.rat (b / c))) ∧
    (Record.get? exampleEmittedNoCpu "speedup" = none ∧
      Record.get? exampleEmittedNoCpu "cpu_time" = none) :=
  ⟨(speedup_iff_baseline "NearestNeighbors" exampleRunner exampleTiming
        []).1 exampleEmittedCpu (by simp [exec_cpu_eval]),
   (speedup_iff_baseline "TSNE" exampleRunner exampleTiming []).2
      exampleEmittedNoCpu (by simp [exec_nocpu_eval])⟩

/-- Helper: the length of the feature-by-repetition inner loop of the
modelled runner. -/
theorem run_inner_length (dims : List Nat) (n : Nat)
    (g : Nat → Nat → Record) :
    (List.flatMap dims fun nf => List.map (g nf) (List.range n)).length =
      dims.length * n := by
  induction dims with
  | nil => simp
  | cons d dims ih =>
    rw [List.flatMap_cons, List.length_append, ih]
    simp only [List.length_map, List.length_range, List.length_cons]
    ring

/-- Helper: the modelled runner emits exactly one record per
(row size, feature size, repetition) triple. -/
theorem run_length (runner : SpeedupComparisonRunner) (timing : Timing)
    (run_cpu : Bool) :
    (runner.run timing run_cpu).length =
      runner.bench_rows.length * runner.bench_dims.length *
        runner.n_reps := by
  rw [SpeedupComparisonRunner.run]
  induction runner.bench_rows with
  | nil => simp
  | cons ns rows ih =>
    rw [List.flatMap_cons, List.length_append, ih, run_inner_length]
    simp only [List.length_cons]
    ring

/-- C5: an invocation of `execute_benchmark` that completes appends
exactly `len(bench_rows) * len(bench_dims) * n_reps` records. -/
theorem records_per_invocation (a : String)
    (runner : SpeedupComparisonRunner) (timing : Timing) (run_cpu : Bool)
    (prev : List Record) :
    (List.drop prev.length
        (execute_benchmark a runner timing run_cpu prev)).length =
      runner.bench_rows.length * runner.bench_dims.length *
        runner.n_reps := by
  simp only [execute_benchmark, execute_benchmark_with, List.append_eq,
    List.drop_left, List.length_map]
  exact run_length runner timing run_cpu

/-- Helper: `List.range 3` written out, for evaluating a three-repetition
sweep. -/
theorem range_three : List.range 3 = [0, 1, 2] := rfl

/-- C6 (failing evaluation): at the notebook's own repetition count
`N_REPS = 3`, the pivot of `chart_single_algo_speedup` fails — pandas
`DataFrame.pivot` raises on the duplicated (n_samples, n_features) pairs
the repetitions produce — while the same complete sweep with a single
repetition pivots into the full table with no missing cells. -/
theorem pivot_fails_on_repeated_sweep :
    chart_single_algo_speedup
        (execute_benchmark "KMeans" exampleRunnerReps3 exampleTiming true
          []) "KMeans" = none ∧
      chart_single_algo_speedup
          (execute_benchmark "KMeans" exampleRunner exampleTiming true [])
          "KMeans" =
        some [(some (Value.nat 16384),
          [(some (Value.nat 32), some (Value.rat 4))])] := by
  constructor
  · simp [chart_single_algo_speedup, pandasPivot, hasDuplicateCell,
      execute_benchmark, execute_benchmark_with,
      SpeedupComparisonRunner.run, exampleRunnerReps3, exampleRunner,
      exampleTiming, enrich_result, Record.set, Record.get?, range_three]
  · simp [chart_single_algo_speedup, pandasPivot, hasDuplicateCell,
      execute_benchmark, execute_benchmark_with,
      SpeedupComparisonRunner.run, exampleRunner, exampleTiming,
      enrich_result, Record.set, Record.get?, dedupFirst, dedupFirstAux]

/-- Counterexample for C7: a complete sweep of one algorithm over one row
size and TWO distinct feature sizes (32 and 256, with speedups 2 and 4)
is aggregated by `chart_all_algo_speedup` into a SINGLE table entry,
keyed by (algo, n_samples) only, holding the mean 3 across the two
feature sizes — not into distinct entries per feature count. -/
theorem groupby_merges_feature_counts :
    (List.map (fun r => Record.get? r "n_features")
        exampleTwoFeatureRecords =
      [some (Value.nat 32), some (Value.nat 256)]) ∧
      chart_all_algo_speedup exampleTwoFeatureRecords =
        [((some (Value.str "KMeans"), some (Value.nat 16384)), 3)] := by
  constructor
  · simp [exampleTwoFeatureRecords, execute_benchmark,
      execute_benchmark_with, SpeedupComparisonRunner.run,
      exampleRunnerTwoFeatures, exampleTimingByFeature, enrich_result,
      Record.set, Record.get?]
  · simp [exampleTwoFeatureRecords, execute_benchmark,
      execute_benchmark_with, SpeedupComparisonRunner.run,
      exampleRunnerTwoFeatures, exampleTimingByFeature, enrich_result,
      Record.set, Record.get?, chart_all_algo_speedup, groupKey,
      dedupFirst, dedupFirstAux, speedupValues, listMean]
    norm_num

/-- C7 (amended): `chart_all_algo_speedup` produces one entry per
distinct (algorithm, row count) pair — feature count is not part of the
key — whose cell is the mean speedup over all records with that pair
(repetitions and feature counts together); every record's pair appears
in the table. -/
theorem groupby_algo_samples_mean (records : List Record) :
    (List.map Prod.fst (chart_all_algo_speedup records) =
      dedupFirst (List.map groupKey records)) ∧
      (∀ p ∈ chart_all_algo_speedup records,
        p.2 = listMean (speedupValues
          (List.filter (fun r => groupKey r == p.1) records))) ∧
      (∀ r ∈ records,
        groupKey r ∈ List.map Prod.fst (chart_all_algo_speedup records)) := by
  refine ⟨?_, ?_, ?_⟩
  · rw [chart_all_algo_speedup]
    simp [List.map_map, Function.comp_def]
  · intro p hp
    rw [chart_all_algo_speedup] at hp
    obtain ⟨k, _, rfl⟩ := List.mem_map.mp hp
    rfl
  · intro r hr
    rw [chart_all_algo_speedup, List.map_map]
    simpa using mem_dedupFirst (List.mem_map.mpr ⟨r, hr, rfl⟩)

/-- Witness for the amended C7 at a concrete record. -/
theorem groupby_algo_samples_mean_witness :
    groupKey exampleEmittedCpu ∈
      List.map Prod.fst (chart_all_algo_speedup [exampleEmittedCpu]) :=
  (groupby_algo_samples_mean [exampleEmittedCpu]).2.2 exampleEmittedCpu
    (by decide)

/-- Counterexample for C8: the persisted header of the example session
has no column named `algorithm`; the algorithm identifier lives in the
column named `algo`. -/
theorem csv_no_algorithm_column :
    "algorithm" ∉ csvHeader exampleCpuRecords ∧
      "algo" ∈ csvHeader exampleCpuRecords ∧
      csvHeader exampleCpuRecords =
        ["n_samples", "n_features", "cu_time", "cpu_time", "speedup",
         "algo", "dataset_name", "input_type"] := by
  have h : csvHeader exampleCpuRecords =
      ["n_samples", "n_features", "cu_time", "cpu_time", "speedup",
       "algo", "dataset_name", "input_type"] := by
    simp [csvHeader, dataFrameColumns, exampleCpuRecords,
      execute_benchmark, execute_benchmark_with,
      SpeedupComparisonRunner.run, exampleRunner, exampleTiming,
      enrich_result, Record.set, Record.keys, dedupFirst, dedupFirstAux]
  rw [h]
  exact ⟨by decide, by decide, rfl⟩

/-- C8 (amended): every record appended by an `execute_benchmark`
invocation carries a key named `algo` (holding the algorithm
identifier), and whenever some accumulated record has the key `algo`,
the exported CSV header contains a column named `algo`. -/
theorem csv_algo_column (a : String) (runner : SpeedupComparisonRunner)
    (runResults prev records : List Record) :
    (∀ r ∈ List.drop prev.length
        (execute_benchmark_with a runner runResults prev),
      "algo" ∈ Record.keys r) ∧
      (∀ r ∈ records, "algo" ∈ Record.keys r →
        "algo" ∈ csvHeader records) := by
  constructor
  · intro r hr
    simp only [execute_benchmark_with, List.append_eq, List.drop_left] at hr
    obtain ⟨s, _, rfl⟩ := List.mem_map.mp hr
    exact Record.mem_keys_of_get? (enrich_result_algo a runner s)
  · intro r hr hk
    unfold csvHeader dataFrameColumns
    exact mem_dedupFirst (List.mem_flatMap.mpr ⟨r, hr, hk⟩)

/-- Witness for the amended C8 at the concrete example invocation. -/
theorem csv_algo_column_witness :
    "algo" ∈ Record.keys exampleEmittedCpu ∧
      "algo" ∈ csvHeader [exampleEmittedCpu] :=
  ⟨(csv_algo_column "NearestNeighbors" exampleRunner [exampleRawCpu] []
      [exampleEmittedCpu]).1 exampleEmittedCpu (by decide),
   (csv_algo_column "NearestNeighbors" exampleRunner [exampleRawCpu] []
      [exampleEmittedCpu]).2 exampleEmittedCpu (by decide) (by decide)⟩

end CuMLBench
